import Mathlib

/-!
Verification of the dual-chunking engine and map-reduce summarization pipeline
of the RAG-Evaluation repository.

The embedding follows the Python sources:
  * `document_processor/chunker.py` — page consolidation (`buildFull`,
    `buildMarkers`), the Python `str.find` primitive (`pyFind`), the chunk
    attribution loops (`ragLoop`, `summaryLoop`) and the top-level entry
    points `create_rag_chunks` / `create_summary_chunks`.
  * `langgraph_pipeline/nodes.py` + `state.py` — `DocumentState`,
    `distribute_chunks`, and the map stage `map_summarize`.

Text is modelled as `List Char`.  External collaborators are injected:
the `RecursiveCharacterTextSplitter` (a langchain library call) is abstracted
as the list of segments it returns, the tiktoken token counter as
`count : List Char → Except String Int`, and the LLM summarization call as
`cap : SummaryChunk → Nat → Except String String`.  A Python exception that
escapes a call is modelled as `Except.error`.
-/

namespace RagEval

/-- Text buffers and segments, modelled as lists of characters. -/
abbrev Str := List Char

/-- A page as handed to the chunker: `{"page_number": ..., "text": ...}`. -/
structure Page where
  page_number : Nat
  text : Str
deriving DecidableEq

/-- A page marker recorded while consolidating pages
(`{"page_number": ..., "start_pos": ..., "end_pos": ...}`). -/
structure PageMarker where
  page_number : Nat
  start_pos : Nat
  end_pos : Nat
deriving DecidableEq

/-- The fixed separator `"\n\n"` appended after every page's text. -/
def sep : Str := ['\n', '\n']

/-- The running `full_text` accumulator of the consolidation loop:
`full_text += page["text"] + "\n\n"` for each page in order. -/
def buildFull (pre : Str) : List Page → Str
  | [] => pre
  | p :: ps => buildFull (pre ++ p.text ++ sep) ps

/-- The `page_markers` list of the consolidation loop: for each page,
`start_pos = len(full_text)` before appending and `end_pos = len(full_text)`
after appending `page["text"] + "\n\n"`. -/
def buildMarkers (pre : Str) : List Page → List PageMarker
  | [] => []
  | p :: ps =>
    ⟨p.page_number, pre.length, (pre ++ p.text ++ sep).length⟩
      :: buildMarkers (pre ++ p.text ++ sep) ps

/-- `True` iff `sub` occurs in `s` at index `i` (and fits inside `s`). -/
def occursAtB (s sub : Str) (i : Nat) : Bool :=
  decide (i + sub.length ≤ s.length) && sub.isPrefixOf (s.drop i)

/-- Fuel-driven scan for the first occurrence of `sub` in `s` at index `≥ i`. -/
def findFrom (s sub : Str) : Nat → Nat → Option Nat
  | _, 0 => none
  | i, fuel + 1 => if occursAtB s sub i then some i else findFrom s sub (i + 1) fuel

/-- Python `s.find(sub, start)`: the smallest index `≥ start` at which `sub`
occurs in `s`, or `-1` if there is none (also when `start > len(s)`). -/
def pyFind (s sub : Str) (start : Nat) : Int :=
  match findFrom s sub start (s.length + 1 - start) with
  | some j => (j : Int)
  | none => -1

/-- The page attribution test of the chunker:
keep every marker with `chunk_start < end_pos and chunk_end > start_pos`,
and collect the page numbers. -/
def overlappingPages (markers : List PageMarker) (chunk_start chunk_end : Int) : List Nat :=
  (markers.filter fun m =>
      decide (chunk_start < (m.end_pos : Int)) && decide ((m.start_pos : Int) < chunk_end)).map
    (fun m => m.page_number)

/-- `f"{min(page_numbers)}-{max(page_numbers)}" if page_numbers else "Unknown"`. -/
def pageRange (pns : List Nat) : String :=
  match pns with
  | [] => "Unknown"
  | p :: ps => toString (ps.foldl min p) ++ "-" ++ toString (ps.foldl max p)

/-- A chunk produced by `create_rag_chunks` (its metadata dict). -/
structure RagChunk where
  chunk_index : Nat
  text : Str
  char_count : Nat
  token_count : Int
  page_numbers : List Nat
  page_number : Option Nat
  document_id : Option String
  chunk_type : String
deriving DecidableEq

/-- A chunk produced by `create_summary_chunks` (its metadata dict). -/
structure SummaryChunk where
  chunk_index : Nat
  text : Str
  char_count : Nat
  token_count : Int
  page_numbers : List Nat
  page_range : String
  document_id : Option String
  chunk_type : String
deriving DecidableEq

/-- The attribution loop of `create_rag_chunks`: for each segment in order,
`chunk_start = full_text.find(chunk_text, current_position)`,
`chunk_end = chunk_start + len(chunk_text)`, the metadata dict is built
(`count` models `count_tokens`, whose exception aborts the whole call),
and `current_position = chunk_start + 1`. -/
def ragLoop (full : Str) (markers : List PageMarker) (count : Str → Except String Int)
    (docId : Option String) : List Str → Nat → Nat → Except String (List RagChunk)
  | [], _, _ => .ok []
  | seg :: rest, idx, cur =>
    let chunk_start : Int := pyFind full seg cur
    let chunk_end : Int := chunk_start + (seg.length : Int)
    let pns : List Nat := overlappingPages markers chunk_start chunk_end
    match count seg with
    | .error e => .error e
    | .ok tc =>
      match ragLoop full markers count docId rest (idx + 1) (chunk_start + 1).toNat with
      | .error e => .error e
      | .ok cs =>
        .ok ({ chunk_index := idx, text := seg, char_count := seg.length, token_count := tc,
               page_numbers := pns, page_number := pns.head?, document_id := docId,
               chunk_type := "rag" } :: cs)

/-- The attribution loop of `create_summary_chunks`; identical to `ragLoop`
except that it derives `page_range` instead of `page_number`. -/
def summaryLoop (full : Str) (markers : List PageMarker) (count : Str → Except String Int)
    (docId : Option String) : List Str → Nat → Nat → Except String (List SummaryChunk)
  | [], _, _ => .ok []
  | seg :: rest, idx, cur =>
    let chunk_start : Int := pyFind full seg cur
    let chunk_end : Int := chunk_start + (seg.length : Int)
    let pns : List Nat := overlappingPages markers chunk_start chunk_end
    match count seg with
    | .error e => .error e
    | .ok tc =>
      match summaryLoop full markers count docId rest (idx + 1) (chunk_start + 1).toNat with
      | .error e => .error e
      | .ok cs =>
        .ok ({ chunk_index := idx, text := seg, char_count := seg.length, token_count := tc,
               page_numbers := pns, page_range := pageRange pns, document_id := docId,
               chunk_type := "summary" } :: cs)

/-- `create_rag_chunks(pages_data, ..., document_id)`: consolidate the pages,
then attribute the segments the text splitter returned.  The splitter
(`RecursiveCharacterTextSplitter.split_text`, an external langchain call) is
abstracted as the `segments` argument; the token counter is injected. -/
def create_rag_chunks (count : Str → Except String Int) (docId : Option String)
    (pages : List Page) (segments : List Str) : Except String (List RagChunk) :=
  ragLoop (buildFull [] pages) (buildMarkers [] pages) count docId segments 0 0

/-- `create_summary_chunks(pages_data, ..., document_id)`, with the splitter
abstracted as the `segments` argument and the token counter injected. -/
def create_summary_chunks (count : Str → Except String Int) (docId : Option String)
    (pages : List Page) (segments : List Str) : Except String (List SummaryChunk) :=
  summaryLoop (buildFull [] pages) (buildMarkers [] pages) count docId segments 0 0

/-- `DocumentState` from `langgraph_pipeline/state.py`.  `document_metadata`
(`Dict[str, any]`) is modelled as an association list. -/
structure DocumentState where
  document_id : String
  document_metadata : List (String × String)
  large_chunks : List SummaryChunk
  total_chunks : Nat
  chunk_summaries : List String
  summaries_completed : Nat
  final_summary : String
  status : String
  error_message : Option String
deriving DecidableEq

/-- `distribute_chunks` from `langgraph_pipeline/nodes.py`. -/
def distribute_chunks (state : DocumentState) : DocumentState :=
  { state with
    status := "mapping"
    total_chunks := state.large_chunks.length
    chunk_summaries := []
    summaries_completed := 0 }

/-- The `asyncio.gather` over `summarize_chunk_async(chunk, llm, total_chunks)`
calls in `map_summarize`: results are collected in task order; a failure of
any call escapes as an exception (`Except.error`). -/
def gatherSummaries (cap : SummaryChunk → Nat → Except String String) (total : Nat) :
    List SummaryChunk → Except String (List String)
  | [] => .ok []
  | c :: cs =>
    match cap c total with
    | .error e => .error e
    | .ok s =>
      match gatherSummaries cap total cs with
      | .error e => .error e
      | .ok rest => .ok (s :: rest)

/-- `map_summarize` from `langgraph_pipeline/nodes.py`: gather all chunk
summaries, then set `chunk_summaries`, `summaries_completed = len(summaries)`
and `status = "reducing"`.  An exception from the gather escapes the function
before any state field is assigned. -/
def map_summarize (cap : SummaryChunk → Nat → Except String String)
    (state : DocumentState) : Except String DocumentState :=
  match gatherSummaries cap state.total_chunks state.large_chunks with
  | .error e => .error e
  | .ok summaries =>
    .ok { state with
          chunk_summaries := summaries
          summaries_completed := summaries.length
          status := "reducing" }

/-- A token counter that always succeeds (deterministically returning 7). -/
def okCount : Str → Except String Int := fun _ => Except.ok 7

/-- A token counter that always fails, modelling a tiktoken exception. -/
def failCount : Str → Except String Int := fun _ => Except.error "token counting failed"

lemma findFrom_sound (s sub : Str) :
    ∀ (fuel i j : Nat), findFrom s sub i fuel = some j →
      i ≤ j ∧ occursAtB s sub j = true ∧
        ∀ k, i ≤ k → k < j → occursAtB s sub k = false := by
  intro fuel
  induction fuel with
  | zero => intro i j h; simp [findFrom] at h
  | succ n ih =>
    intro i j h
    rw [findFrom] at h
    by_cases hc : occursAtB s sub i = true
    · rw [if_pos hc] at h
      injection h with h
      subst h
      exact ⟨le_refl i, hc, fun k hk1 hk2 => absurd (lt_of_le_of_lt hk1 hk2) (lt_irrefl i)⟩
    · rw [if_neg hc] at h
      obtain ⟨h1, h2, h3⟩ := ih (i + 1) j h
      refine ⟨le_trans (Nat.le_succ i) h1, h2, ?_⟩
      intro k hk1 hk2
      rcases Nat.lt_or_ge k (i + 1) with hk | hk
      · have hki : k = i := by omega
        subst hki
        exact Bool.eq_false_iff.mpr hc
      · exact h3 k hk hk2

lemma pyFind_eq_nat (s sub : Str) (start j : Nat)
    (h : pyFind s sub start = (j : Int)) :
    findFrom s sub start (s.length + 1 - start) = some j := by
  unfold pyFind at h
  split at h
  · next j2 heq =>
      have hj : j2 = j := by exact_mod_cast h
      rw [hj] at heq
      exact heq
  · next heq => exact absurd h (by omega)

/-- C4: when the attribution of a segment succeeds (`pyFind` returns the
non-negative index `j`), then `j` is the first occurrence of the segment at or
after the current cursor `cur`, and both attribution loops process the
remaining segments with the cursor advanced to exactly `j + 1`
(`chunk_start + 1`), not to `chunk_end`. -/
theorem C4_cursor_advance (full : Str) (markers : List PageMarker)
    (count : Str → Except String Int) (docId : Option String)
    (seg : Str) (rest : List Str) (idx cur j : Nat)
    (hfind : pyFind full seg cur = (j : Int)) :
    (cur ≤ j ∧ occursAtB full seg j = true ∧
      ∀ k, cur ≤ k → k < j → occursAtB full seg k = false) ∧
    (∀ tc cs, count seg = Except.ok tc →
      ragLoop full markers count docId rest (idx + 1) (j + 1) = Except.ok cs →
      ragLoop full markers count docId (seg :: rest) idx cur =
        Except.ok
          ({ chunk_index := idx, text := seg, char_count := seg.length,
             token_count := tc,
             page_numbers := overlappingPages markers (j : Int) ((j : Int) + (seg.length : Int)),
             page_number :=
               (overlappingPages markers (j : Int) ((j : Int) + (seg.length : Int))).head?,
             document_id := docId, chunk_type := "rag" } :: cs)) ∧
    (∀ tc cs, count seg = Except.ok tc →
      summaryLoop full markers count docId rest (idx + 1) (j + 1) = Except.ok cs →
      summaryLoop full markers count docId (seg :: rest) idx cur =
        Except.ok
          ({ chunk_index := idx, text := seg, char_count := seg.length,
             token_count := tc,
             page_numbers := overlappingPages markers (j : Int) ((j : Int) + (seg.length : Int)),
             page_range :=
               pageRange (overlappingPages markers (j : Int) ((j : Int) + (seg.length : Int))),
             document_id := docId, chunk_type := "summary" } :: cs)) := by
  have hcur : ((j : Int) + 1).toNat = j + 1 := by omega
  refine ⟨findFrom_sound full seg _ cur j (pyFind_eq_nat full seg cur j hfind), ?_, ?_⟩
  · intro tc cs hc hrec
    simp only [ragLoop, hfind, hcur, hc, hrec]
  · intro tc cs hc hrec
    simp only [summaryLoop, hfind, hcur, hc, hrec]

/-- C4 witness: attributing segment `"a"` in buffer `"aba"` with the cursor at
position 1 finds the occurrence at index 2 and threads cursor 3 to the rest. -/
theorem C4_cursor_advance_witness :
    (1 ≤ 2 ∧ occursAtB ['a', 'b', 'a'] ['a'] 2 = true ∧
      ∀ k, 1 ≤ k → k < 2 → occursAtB ['a', 'b', 'a'] ['a'] k = false) ∧
    (∀ tc cs, okCount ['a'] = Except.ok tc →
      ragLoop ['a', 'b', 'a'] [] okCount none [] (0 + 1) (2 + 1) = Except.ok cs →
      ragLoop ['a', 'b', 'a'] [] okCount none [['a']] 0 1 =
        Except.ok
          ({ chunk_index := 0, text := ['a'], char_count := (['a'] : Str).length,
             token_count := tc,
             page_numbers := overlappingPages [] ((2 : Nat) : Int)
               (((2 : Nat) : Int) + ((['a'] : Str).length : Int)),
             page_number := (overlappingPages [] ((2 : Nat) : Int)
               (((2 : Nat) : Int) + ((['a'] : Str).length : Int))).head?,
             document_id := none, chunk_type := "rag" } :: cs)) ∧
    (∀ tc cs, okCount ['a'] = Except.ok tc →
      summaryLoop ['a', 'b', 'a'] [] okCount none [] (0 + 1) (2 + 1) = Except.ok cs →
      summaryLoop ['a', 'b', 'a'] [] okCount none [['a']] 0 1 =
        Except.ok
          ({ chunk_index := 0, text := ['a'], char_count := (['a'] : Str).length,
             token_count := tc,
             page_numbers := overlappingPages [] ((2 : Nat) : Int)
               (((2 : Nat) : Int) + ((['a'] : Str).length : Int)),
             page_range := pageRange (overlappingPages [] ((2 : Nat) : Int)
               (((2 : Nat) : Int) + ((['a'] : Str).length : Int))),
             document_id := none, chunk_type := "summary" } :: cs)) :=
  C4_cursor_advance ['a', 'b', 'a'] [] okCount none ['a'] [] 0 1 2 (by decide)

lemma buildMarkers_map_pn : ∀ (pages : List Page) (pre : Str),
    (buildMarkers pre pages).map (fun m => m.page_number) =
      pages.map (fun p => p.page_number)
  | [], _ => rfl
  | p :: ps, pre => by
    rw [buildMarkers, List.map_cons, List.map_cons, buildMarkers_map_pn ps]

lemma buildMarkers_head_start : ∀ (pages : List Page) (pre : Str) (m : PageMarker),
    (buildMarkers pre pages).head? = some m → m.start_pos = pre.length
  | [], _, m => by simp [buildMarkers]
  | p :: ps, pre, m => by
    intro h
    simp only [buildMarkers, List.head?_cons, Option.some.injEq] at h
    rw [← h]

lemma buildMarkers_contig : ∀ (pages : List Page) (pre : Str),
    List.Chain' (fun a b => a.end_pos = b.start_pos) (buildMarkers pre pages)
  | [], _ => List.chain'_nil
  | p :: ps, pre => by
    rw [buildMarkers]
    refine List.chain'_cons'.mpr ⟨?_, buildMarkers_contig ps _⟩
    intro b hb
    exact (buildMarkers_head_start ps (pre ++ p.text ++ sep) b (Option.mem_def.mp hb)).symm

lemma buildMarkers_last_end : ∀ (pages : List Page) (pre : Str), pages ≠ [] →
    ∃ m, (buildMarkers pre pages).getLast? = some m ∧
      m.end_pos = (buildFull pre pages).length
  | [], _, h => absurd rfl h
  | [p], pre, _ =>
    ⟨⟨p.page_number, pre.length, (pre ++ p.text ++ sep).length⟩, rfl, rfl⟩
  | p :: q :: ps, pre, _ => by
    obtain ⟨m, hm, he⟩ :=
      buildMarkers_last_end (q :: ps) (pre ++ p.text ++ sep) (List.cons_ne_nil q ps)
    refine ⟨m, ?_, he⟩
    rw [buildMarkers, buildMarkers, List.getLast?_cons_cons, ← buildMarkers]
    exact hm

lemma buildMarkers_start_lt_end : ∀ (pages : List Page) (pre : Str),
    ∀ m ∈ buildMarkers pre pages, m.start_pos < m.end_pos
  | [], _ => by simp [buildMarkers]
  | p :: ps, pre => by
    intro m hm
    rw [buildMarkers] at hm
    rcases List.mem_cons.mp hm with rfl | hm
    · simp only [List.length_append, sep, List.length_cons, List.length_nil]
      omega
    · exact buildMarkers_start_lt_end ps _ m hm

/-- C5: for a non-empty page sequence whose page numbers are increasing, the
markers recorded while consolidating the buffer are ordered by page number,
contiguous (each marker's end offset is the next marker's start offset), each
marker is a non-empty range, the first marker starts at offset 0 and the last
marker ends at the length of the consolidated buffer: together they cover the
buffer exactly, with no gaps and no overlaps between pages. -/
theorem C5_marker_invariants (pages : List Page) (hne : pages ≠ [])
    (hord : List.Chain' (fun p q => p.page_number < q.page_number) pages) :
    List.Chain' (fun a b => a.page_number < b.page_number) (buildMarkers [] pages) ∧
    List.Chain' (fun a b => a.end_pos = b.start_pos) (buildMarkers [] pages) ∧
    (∀ m ∈ buildMarkers [] pages, m.start_pos < m.end_pos) ∧
    (∃ m0, (buildMarkers [] pages).head? = some m0 ∧ m0.start_pos = 0) ∧
    (∃ ml, (buildMarkers [] pages).getLast? = some ml ∧
      ml.end_pos = (buildFull [] pages).length) := by
  refine ⟨?_, buildMarkers_contig pages [], buildMarkers_start_lt_end pages [], ?_,
    buildMarkers_last_end pages [] hne⟩
  · have h1 : List.Chain' (fun a b : Nat => a < b)
        ((buildMarkers [] pages).map (fun m => m.page_number)) := by
      rw [buildMarkers_map_pn pages []]
      exact (List.chain'_map (fun p : Page => p.page_number)).mpr hord
    exact (List.chain'_map (fun m : PageMarker => m.page_number)).mp h1
  · cases pages with
    | nil => exact absurd rfl hne
    | cons p ps =>
      exact ⟨⟨p.page_number, 0, (([] : Str) ++ p.text ++ sep).length⟩, rfl, rfl⟩

/-- C5 witness: the marker invariants hold for two concrete pages. -/
theorem C5_marker_invariants_witness :
    List.Chain' (fun a b => a.page_number < b.page_number)
      (buildMarkers [] [⟨1, ['a']⟩, ⟨2, ['b']⟩]) ∧
    List.Chain' (fun a b => a.end_pos = b.start_pos)
      (buildMarkers [] [⟨1, ['a']⟩, ⟨2, ['b']⟩]) ∧
    (∀ m ∈ buildMarkers [] [⟨1, ['a']⟩, ⟨2, ['b']⟩], m.start_pos < m.end_pos) ∧
    (∃ m0, (buildMarkers [] [⟨1, ['a']⟩, ⟨2, ['b']⟩]).head? = some m0 ∧
      m0.start_pos = 0) ∧
    (∃ ml, (buildMarkers [] [⟨1, ['a']⟩, ⟨2, ['b']⟩]).getLast? = some ml ∧
      ml.end_pos = (buildFull [] [⟨1, ['a']⟩, ⟨2, ['b']⟩]).length) :=
  C5_marker_invariants [⟨1, ['a']⟩, ⟨2, ['b']⟩] (List.cons_ne_nil _ _)
    (List.chain'_pair.mpr (by decide))

/-- C6 counterexample: for a single page numbered 1 with two-character text
`"ab"`, the recorded marker is `{1, 0, 4}`: its end offset is 4, which is not
the start offset plus the length of the page's text (0 + 2).  The recorded
end offset includes the two-newline separator. -/
theorem C6_marker_end_counterexample :
    buildMarkers [] [⟨1, ['a', 'b']⟩] = [⟨1, 0, 4⟩] ∧
    ¬ ((4 : Nat) = 0 + (['a', 'b'] : Str).length) :=
  ⟨rfl, by decide⟩

lemma buildMarkers_zip_spec : ∀ (pages : List Page) (pre : Str) (m : PageMarker) (p : Page),
    (m, p) ∈ (buildMarkers pre pages).zip pages →
    m.page_number = p.page_number ∧
      m.end_pos = m.start_pos + p.text.length + sep.length
  | [], _, m, p => by simp [buildMarkers]
  | q :: ps, pre, m, p => by
    intro h
    rw [buildMarkers, List.zip_cons_cons] at h
    rcases List.mem_cons.mp h with h | h
    · injection h with h1 h2
      subst h1
      subst h2
      refine ⟨rfl, ?_⟩
      simp only [List.length_append]
    · exact buildMarkers_zip_spec ps _ m p h

/-- C6 amended: each page's recorded marker range starts at the page's start
offset and ends at the start offset plus the page's text length plus the
length of the two-newline separator: the separator is included in the page's
recorded range (and the marker carries the page's number). -/
theorem C6_marker_end_amended (pages : List Page) (m : PageMarker) (p : Page)
    (h : (m, p) ∈ (buildMarkers [] pages).zip pages) :
    m.page_number = p.page_number ∧ m.end_pos = m.start_pos + p.text.length + 2 :=
  buildMarkers_zip_spec pages [] m p h

/-- C6 amended witness: the single marker of a one-page document with text
`"ab"` ends at its start offset plus 2 + 2. -/
theorem C6_marker_end_amended_witness :
    (⟨1, 0, 4⟩ : PageMarker).page_number = (⟨1, ['a', 'b']⟩ : Page).page_number ∧
    (⟨1, 0, 4⟩ : PageMarker).end_pos =
      (⟨1, 0, 4⟩ : PageMarker).start_pos + (⟨1, ['a', 'b']⟩ : Page).text.length + 2 :=
  C6_marker_end_amended [⟨1, ['a', 'b']⟩] ⟨1, 0, 4⟩ ⟨1, ['a', 'b']⟩ (by decide)

/-- A pipeline state whose summary chunk collection is empty, exactly as the
summarize endpoint builds the initial state before running the graph. -/
def emptyChunksState : DocumentState :=
  { document_id := "doc-1", document_metadata := [], large_chunks := [],
    total_chunks := 0, chunk_summaries := [], summaries_completed := 0,
    final_summary := "", status := "distributing", error_message := none }

/-- C1: on a state whose `large_chunks` collection is empty, `distribute_chunks`
performs no validation at all: it transitions the state to `mapping` with
`total_chunks = 0` and reports no error, contradicting its own docstring
("validates the chunks are ready") and the specified input-error behavior. -/
theorem C1_distribute_empty_enters_mapping :
    emptyChunksState.large_chunks = [] ∧
    (distribute_chunks emptyChunksState).status = "mapping" ∧
    (distribute_chunks emptyChunksState).total_chunks = 0 ∧
    (distribute_chunks emptyChunksState).error_message = none :=
  ⟨rfl, rfl, rfl, rfl⟩

/-- C10: `distribute_chunks` modifies only `status`, `total_chunks`,
`chunk_summaries` and `summaries_completed`; the fields `document_id`,
`document_metadata`, `large_chunks`, `final_summary` and `error_message` of
the returned state equal those of the input state. -/
theorem C10_distribute_frame (s : DocumentState) :
    (distribute_chunks s).document_id = s.document_id ∧
    (distribute_chunks s).document_metadata = s.document_metadata ∧
    (distribute_chunks s).large_chunks = s.large_chunks ∧
    (distribute_chunks s).final_summary = s.final_summary ∧
    (distribute_chunks s).error_message = s.error_message ∧
    (distribute_chunks s).status = "mapping" ∧
    (distribute_chunks s).total_chunks = s.large_chunks.length ∧
    (distribute_chunks s).chunk_summaries = [] ∧
    (distribute_chunks s).summaries_completed = 0 :=
  ⟨rfl, rfl, rfl, rfl, rfl, rfl, rfl, rfl, rfl⟩

/-- A summarization capability that always fails, modelling a failed LLM call. -/
def failingCap : SummaryChunk → Nat → Except String String :=
  fun _ _ => Except.error "LLM call failed"

/-- A summarization capability that deterministically succeeds. -/
def okCap : SummaryChunk → Nat → Except String String :=
  fun c _ => Except.ok ("summary of section " ++ toString c.chunk_index)

/-- A summary chunk as produced by the chunker. -/
def exChunk : SummaryChunk :=
  ⟨0, ['a', 'b'], 2, 7, [1], "1-1", none, "summary"⟩

/-- The state reaching the map stage for a one-chunk document. -/
def exMapState : DocumentState :=
  { document_id := "doc-1", document_metadata := [], large_chunks := [exChunk],
    total_chunks := 1, chunk_summaries := [], summaries_completed := 0,
    final_summary := "", status := "mapping", error_message := none }

/-- C2 counterexample: when the (only) summarization invocation fails, the map
stage does not finish with a state whose `status` is `"error"` and whose
`error_message` is set — it raises the failure out of the stage
(`Except.error`), leaving the caller's state with `status = "mapping"` and
`error_message = none`. -/
theorem C2_map_failure_counterexample :
    map_summarize failingCap exMapState = Except.error "LLM call failed" ∧
    exMapState.status = "mapping" ∧ exMapState.error_message = none :=
  ⟨rfl, rfl, rfl⟩

lemma gatherSummaries_error_of_mem (cap : SummaryChunk → Nat → Except String String)
    (total : Nat) :
    ∀ (l : List SummaryChunk) (c : SummaryChunk) (e : String),
      c ∈ l → cap c total = Except.error e →
      ∃ e2, gatherSummaries cap total l = Except.error e2
  | [], c, e, h, _ => absurd h (List.not_mem_nil c)
  | c0 :: cs, c, e, h, hfail => by
    rcases List.mem_cons.mp h with rfl | hm
    · exact ⟨e, by rw [gatherSummaries, hfail]⟩
    · cases hc : cap c0 total with
      | error e0 => exact ⟨e0, by rw [gatherSummaries, hc]⟩
      | ok s =>
        obtain ⟨e2, h2⟩ := gatherSummaries_error_of_mem cap total cs c e hm hfail
        exact ⟨e2, by rw [gatherSummaries, hc, h2]⟩

/-- C2 amended: if any summarization invocation of the map stage fails, the
map stage propagates the failure instead of returning an updated state: no
successor state is produced at all (in particular none with partial
`chunk_summaries`, and none with `status = "error"` or `error_message` set —
the caller records the error outside the pipeline state). -/
theorem C2_map_failure_propagates (cap : SummaryChunk → Nat → Except String String)
    (st : DocumentState) (c : SummaryChunk) (e : String)
    (hmem : c ∈ st.large_chunks) (hfail : cap c st.total_chunks = Except.error e) :
    ∃ e2, map_summarize cap st = Except.error e2 ∧
      ∀ s2, map_summarize cap st ≠ Except.ok s2 := by
  obtain ⟨e2, h2⟩ :=
    gatherSummaries_error_of_mem cap st.total_chunks st.large_chunks c e hmem hfail
  refine ⟨e2, by rw [map_summarize, h2], ?_⟩
  intro s2 hcon
  rw [map_summarize, h2] at hcon
  exact Except.noConfusion hcon

/-- C2 witness: the amended behavior at the concrete failing one-chunk state. -/
theorem C2_map_failure_propagates_witness :
    ∃ e2, map_summarize failingCap exMapState = Except.error e2 ∧
      ∀ s2, map_summarize failingCap exMapState ≠ Except.ok s2 :=
  C2_map_failure_propagates failingCap exMapState exChunk "LLM call failed"
    (List.mem_singleton.mpr rfl) rfl

lemma gatherSummaries_ok (cap : SummaryChunk → Nat → Except String String) (total : Nat) :
    ∀ (l : List SummaryChunk),
      (∀ c ∈ l, ∃ s, cap c total = Except.ok s) →
      ∃ out, gatherSummaries cap total l = Except.ok out ∧
        List.Forall₂ (fun c s => cap c total = Except.ok s) l out
  | [] => fun _ => ⟨[], rfl, List.Forall₂.nil⟩
  | c :: cs => fun h => by
    obtain ⟨s, hs⟩ := h c (List.mem_cons_self c cs)
    obtain ⟨out, hout, hf⟩ :=
      gatherSummaries_ok cap total cs (fun c2 hc2 => h c2 (List.mem_cons_of_mem c hc2))
    exact ⟨s :: out, by rw [gatherSummaries, hs, hout], List.Forall₂.cons hs hf⟩

/-- C3: when every summarization invocation succeeds for a state with N summary
chunks (whose `chunk_index` fields equal their positions, as the chunker
guarantees), the map stage returns a state whose `chunk_summaries` has length
N, whose entry at index i is the summary of the chunk with `chunk_index` i,
with `summaries_completed = N` and `status = "reducing"`. -/
theorem C3_map_success (cap : SummaryChunk → Nat → Except String String)
    (st : DocumentState)
    (hok : ∀ c ∈ st.large_chunks, ∃ s, cap c st.total_chunks = Except.ok s)
    (hidx : ∀ (i : Nat) (hi : i < st.large_chunks.length),
      (st.large_chunks.get ⟨i, hi⟩).chunk_index = i) :
    ∃ st2, map_summarize cap st = Except.ok st2 ∧
      st2.chunk_summaries.length = st.large_chunks.length ∧
      st2.summaries_completed = st.large_chunks.length ∧
      st2.status = "reducing" ∧
      st2.large_chunks = st.large_chunks ∧
      ∀ (i : Nat) (hi : i < st.large_chunks.length) (hi2 : i < st2.chunk_summaries.length),
        (st.large_chunks.get ⟨i, hi⟩).chunk_index = i ∧
        cap (st.large_chunks.get ⟨i, hi⟩) st.total_chunks =
          Except.ok (st2.chunk_summaries.get ⟨i, hi2⟩) := by
  obtain ⟨out, hout, hf⟩ := gatherSummaries_ok cap st.total_chunks st.large_chunks hok
  have hlen := List.Forall₂.length_eq hf
  refine ⟨{ st with
      chunk_summaries := out,
      summaries_completed := out.length,
      status := "reducing" },
    by rw [map_summarize, hout], hlen.symm, hlen.symm, rfl, rfl, ?_⟩
  intro i hi hi2
  exact ⟨hidx i hi, (List.forall₂_iff_get.mp hf).2 i hi hi2⟩

/-- C3 witness: the map stage at a concrete one-chunk state with a succeeding
capability. -/
theorem C3_map_success_witness :
    ∃ st2, map_summarize okCap exMapState = Except.ok st2 ∧
      st2.chunk_summaries.length = exMapState.large_chunks.length ∧
      st2.summaries_completed = exMapState.large_chunks.length ∧
      st2.status = "reducing" ∧
      st2.large_chunks = exMapState.large_chunks ∧
      ∀ (i : Nat) (hi : i < exMapState.large_chunks.length)
        (hi2 : i < st2.chunk_summaries.length),
        (exMapState.large_chunks.get ⟨i, hi⟩).chunk_index = i ∧
        okCap (exMapState.large_chunks.get ⟨i, hi⟩) exMapState.total_chunks =
          Except.ok (st2.chunk_summaries.get ⟨i, hi2⟩) :=
  C3_map_success okCap exMapState (fun c _ => ⟨_, rfl⟩)
    (fun i hi => by
      have h0 : i = 0 := by
        have := hi
        simp only [exMapState, List.length_cons, List.length_nil] at this
        omega
      subst h0
      rfl)

/-- C7: when a segment's text is not found at or after the cursor (`find`
returns -1), attribution does not degrade to an empty page list: the unhandled
-1 makes the interval test `chunk_start < end_pos and chunk_end > start_pos`
succeed for page 1, so the chunk is produced with `page_numbers = [1]` and
`page_number = 1` instead of `[]` and null (the pass is indeed not aborted). -/
theorem C7_attribution_miss_attributes_page :
    pyFind (buildFull [] [⟨1, ['a', 'b']⟩]) ['z', 'z'] 0 = -1 ∧
    create_rag_chunks okCount none [⟨1, ['a', 'b']⟩] [['z', 'z']] =
      Except.ok [⟨0, ['z', 'z'], 2, 7, [1], some 1, none, "rag"⟩] :=
  ⟨rfl, rfl⟩

/-- C8 counterexample: a summary chunk whose `page_numbers` is empty carries
`page_range = "Unknown"` (capital U), not the claimed `"unknown"`. -/
theorem C8_page_range_counterexample :
    create_summary_chunks okCount none [⟨1, ['a', 'b']⟩] [['z']] =
      Except.ok [⟨0, ['z'], 1, 7, [], "Unknown", none, "summary"⟩] ∧
    "Unknown" ≠ "unknown" :=
  ⟨rfl, by decide⟩

lemma summaryLoop_page_range (full : Str) (markers : List PageMarker)
    (count : Str → Except String Int) (docId : Option String) :
    ∀ (segs : List Str) (idx cur : Nat) (chunks : List SummaryChunk),
      summaryLoop full markers count docId segs idx cur = Except.ok chunks →
      ∀ c ∈ chunks, c.page_range = pageRange c.page_numbers
  | [], _, _, chunks, h => by
    simp only [summaryLoop, Except.ok.injEq] at h
    subst h
    intro c hc
    exact absurd hc (List.not_mem_nil c)
  | s :: rest, idx, cur, chunks, h => by
    revert h
    simp only [summaryLoop]
    cases hc : count s with
    | error e => intro h; exact absurd h (by simp)
    | ok tc =>
      cases hrec : summaryLoop full markers count docId rest (idx + 1)
          ((pyFind full s cur + 1).toNat) with
      | error e => intro h; exact absurd h (by simp)
      | ok cs =>
        intro h
        injection h with h
        subst h
        intro c hc
        rcases List.mem_cons.mp hc with rfl | hm
        · rfl
        · exact summaryLoop_page_range full markers count docId rest (idx + 1)
            ((pyFind full s cur + 1).toNat) cs hrec c hm

/-- C8 amended: every chunk produced by the summary chunker carries
`page_range = "{min}-{max}"` computed from its `page_numbers` when that list
is non-empty, and `page_range = "Unknown"` (capital U) when it is empty. -/
theorem C8_page_range_amended (count : Str → Except String Int) (docId : Option String)
    (pages : List Page) (segs : List Str) (chunks : List SummaryChunk)
    (h : create_summary_chunks count docId pages segs = Except.ok chunks) :
    ∀ c ∈ chunks,
      (c.page_numbers = [] → c.page_range = "Unknown") ∧
      ∀ p ps, c.page_numbers = p :: ps →
        c.page_numbers.min? = some (ps.foldl min p) ∧
        c.page_numbers.max? = some (ps.foldl max p) ∧
        c.page_range = toString (ps.foldl min p) ++ "-" ++ toString (ps.foldl max p) := by
  intro c hc
  have hpr := summaryLoop_page_range (buildFull [] pages) (buildMarkers [] pages)
    count docId segs 0 0 chunks h c hc
  constructor
  · intro hnil
    rw [hpr, hnil]
    rfl
  · intro p ps hcons
    refine ⟨by rw [hcons]; rfl, by rw [hcons]; rfl, ?_⟩
    rw [hpr, hcons]
    rfl

/-- C8 amended witness: the chunk the summary chunker produces for segment
`"ab"` of a one-page document spans exactly page 1 and carries
`page_range = "1-1"`, consistent with its `page_numbers = [1]`. -/
theorem C8_page_range_amended_witness :
    ([1] : List Nat).min? = some 1 ∧ ([1] : List Nat).max? = some 1 ∧
    (⟨0, ['a', 'b'], 2, 7, [1], "1-1", none, "summary"⟩ : SummaryChunk).page_range =
      toString (1 : Nat) ++ "-" ++ toString (1 : Nat) := by
  have h := C8_page_range_amended okCount none [⟨1, ['a', 'b']⟩] [['a', 'b']]
    [⟨0, ['a', 'b'], 2, 7, [1], "1-1", none, "summary"⟩] rfl
    (⟨0, ['a', 'b'], 2, 7, [1], "1-1", none, "summary"⟩ : SummaryChunk)
    (List.mem_singleton.mpr rfl)
  obtain ⟨ha, hb, hc⟩ := h.2 1 [] rfl
  exact ⟨ha, hb, hc⟩

/-- C9 counterexample: when the token counter fails for the (only) segment,
the chunking call returns the failure itself — no chunk is produced and no
sentinel `token_count = -1` appears. -/
theorem C9_count_failure_counterexample :
    create_rag_chunks failCount none [⟨1, ['a', 'b']⟩] [['a', 'b']] =
      Except.error "token counting failed" :=
  rfl

lemma ragLoop_error_of_count_error (full : Str) (markers : List PageMarker)
    (count : Str → Except String Int) (docId : Option String) :
    ∀ (segs : List Str) (idx cur : Nat) (seg : Str) (e : String),
      seg ∈ segs → count seg = Except.error e →
      ∃ e2, ragLoop full markers count docId segs idx cur = Except.error e2
  | [], _, _, seg, _, h, _ => absurd h (List.not_mem_nil seg)
  | s :: rest, idx, cur, seg, e, h, hfail => by
    rcases List.mem_cons.mp h with rfl | hm
    · exact ⟨e, by simp only [ragLoop, hfail]⟩
    · cases hc : count s with
      | error e0 => exact ⟨e0, by simp only [ragLoop, hc]⟩
      | ok tc =>
        obtain ⟨e2, h2⟩ := ragLoop_error_of_count_error full markers count docId rest
          (idx + 1) ((pyFind full s cur + 1).toNat) seg e hm hfail
        exact ⟨e2, by simp only [ragLoop, hc, h2]⟩

/-- C9 amended: a token-counting failure blocks chunk production: if the
counter fails on any segment's text, the whole chunking call propagates the
failure and produces no chunk list at all (there is no sentinel fallback). -/
theorem C9_count_failure_blocks (count : Str → Except String Int) (docId : Option String)
    (pages : List Page) (segs : List Str) (seg : Str) (e : String)
    (hmem : seg ∈ segs) (hfail : count seg = Except.error e) :
    ∃ e2, create_rag_chunks count docId pages segs = Except.error e2 ∧
      ∀ chunks, create_rag_chunks count docId pages segs ≠ Except.ok chunks := by
  obtain ⟨e2, h2⟩ := ragLoop_error_of_count_error (buildFull [] pages)
    (buildMarkers [] pages) count docId segs 0 0 seg e hmem hfail
  refine ⟨e2, h2, ?_⟩
  intro chunks hcon
  rw [create_rag_chunks, h2] at hcon
  exact Except.noConfusion hcon

/-- C9 amended witness: the failing counter at a concrete one-segment input. -/
theorem C9_count_failure_blocks_witness :
    ∃ e2, create_rag_chunks failCount none [⟨1, ['a', 'b']⟩] [['a', 'b']] =
        Except.error e2 ∧
      ∀ chunks, create_rag_chunks failCount none [⟨1, ['a', 'b']⟩] [['a', 'b']] ≠
        Except.ok chunks :=
  C9_count_failure_blocks failCount none [⟨1, ['a', 'b']⟩] [['a', 'b']] ['a', 'b']
    "token counting failed" (List.mem_singleton.mpr rfl) rfl

end RagEval
